import Mathlib

/-!
Verification development for `inoliblist.py`, a crawler that catalogs
Arduino library repositories.  The Python source is shallowly embedded:
pure string manipulation is modelled over `List Char` (Python `str`
operations are re-implemented with Python's semantics), HTTP traffic is
abstracted as explicit response sequences passed to the embedded
functions, and Python exceptions become `Except`/`Option` results.
-/

namespace Inoliblist

/-! ## Python string primitives

Python string operations used by the source, modelled over `List Char`
(ASCII semantics; the source only manipulates ASCII metacharacters). -/

def chars (s : String) : List Char := s.data

def ofChars (l : List Char) : String := ⟨l⟩

/-- Characters stripped by Python's `str.strip()` (ASCII whitespace). -/
def pyIsSpace (c : Char) : Bool :=
  c = ' ' || c = '\t' || c = '\n' || c = '\x0d' || c = '\x0b' || c = '\x0c'

/-- Python `str.strip()`. -/
def pyStripChars (l : List Char) : List Char :=
  ((l.dropWhile pyIsSpace).reverse.dropWhile pyIsSpace).reverse

def pyStrip (s : String) : String := ofChars (pyStripChars s.data)

/-- Python `str.startswith`. -/
def pyStartsWith (s pre : String) : Bool := List.isPrefixOf pre.data s.data

/-- Python `str.endswith`. -/
def pyEndsWith (s suffix : String) : Bool := List.isSuffixOf suffix.data s.data

/-- Python slice `s[:n]`. -/
def pyTake (n : Nat) (s : String) : String := ofChars (s.data.take n)

/-- Python slice `s[-n:]` (for `0 < n ≤ len(s)` it keeps the last `n`
characters; for longer `n` it is the whole string, as in Python). -/
def pyTakeLast (n : Nat) (s : String) : String :=
  ofChars (s.data.drop (s.data.length - n))

/-- Split on every character satisfying `p`, keeping empty pieces —
the semantics of Python `str.split(sep)` with a one-character separator
and of `re.split` with a character class. -/
def splitChars (p : Char → Bool) : List Char → List (List Char)
  | [] => [[]]
  | c :: rest =>
    if p c then [] :: splitChars p rest
    else
      match splitChars p rest with
      | piece :: pieces => (c :: piece) :: pieces
      | [] => [[c]]

/-- Python `s.split(sep)` for a one-character separator. -/
def pySplitChar (sep : Char) (s : String) : List String :=
  (splitChars (fun c => c = sep) s.data).map ofChars

/-- Substring containment, Python `pat in s` / `s.find(pat) != -1`. -/
def containsSub (pat : List Char) : List Char → Bool
  | [] => List.isPrefixOf pat []
  | c :: rest => List.isPrefixOf pat (c :: rest) || containsSub pat rest

/-- Python `str.splitlines` piece structure: a new piece starts after
each `\r\n`, `\r` or `\n`. -/
def splitLinesAux : List Char → List (List Char)
  | [] => [[]]
  | '\x0d' :: '\n' :: rest => [] :: splitLinesAux rest
  | '\x0d' :: rest => [] :: splitLinesAux rest
  | '\n' :: rest => [] :: splitLinesAux rest
  | c :: rest =>
    match splitLinesAux rest with
    | piece :: pieces => (c :: piece) :: pieces
    | [] => [[c]]

/-- Python `str.splitlines()`: unlike `split`, it produces no trailing
empty line for terminator-ended input and `""` gives `[]`. -/
def pySplitLines (s : String) : List String :=
  let pieces := splitLinesAux s.data
  (if pieces.getLast? = some [] then pieces.dropLast else pieces).map ofChars

/-- Python `str.replace('\t', "    ")` as applied by `populate_row`. -/
def pyReplaceTabs (s : String) : String :=
  ofChars (s.data.foldr (fun c acc => if c = '\t' then chars "    " ++ acc else c :: acc) [])

/-! ## JSON values

Decoded JSON bodies (`json.loads` results). -/

inductive JsonV where
  | jnull
  | jbool (b : Bool)
  | jnum (n : Int)
  | jstr (s : String)
  | jarr (items : List JsonV)
  | jobj (fields : List (String × JsonV))

/-- Python truthiness of a decoded JSON value (`if not json_data`). -/
def jsonFalsy : JsonV → Bool
  | .jnull => true
  | .jbool b => !b
  | .jnum n => n == 0
  | .jstr s => s.data.isEmpty
  | .jarr items => items.isEmpty
  | .jobj fields => fields.isEmpty

/-- Python `d[key]` on a decoded JSON object (`None` = `KeyError`). -/
def jsonLookup (fields : List (String × JsonV)) (key : String) : Option JsonV :=
  match fields.find? (fun f => f.1 == key) with
  | some f => some f.2
  | none => none

/-! ## Resilient Fetcher (`get_json_from_url`, `determine_urlopen_retry`)

One HTTP exchange is abstracted as a `ServerResp`; a URL's behaviour over
time is a sequence `Nat → ServerResp` indexed by the attempt number.
The 60-second sleep before a retry has no observable effect here and is
dropped; the quota-header push into the rate-limit cache is modelled with
the Rate Limiter. -/

/-- Configuration constant `urlopen_retry_on_http_error`. -/
def urlopenRetryOnHttpError : List String := ["403", "502", "503"]

/-- Configuration constant `urlopen_maximum_retries`. -/
def urlopenMaximumRetries : Nat := 5

/-- Embeds `determine_urlopen_retry`: retry iff `str(exception)` starts with
`"HTTP Error "` followed by one of the three transient codes. -/
def determineUrlopenRetry (excMessage : String) : Bool :=
  urlopenRetryOnHttpError.any
    (fun errorCode => pyStartsWith excMessage ("HTTP Error " ++ errorCode))

/-- A successfully opened URL: the decoded body (`none` when the body is
not valid JSON, which makes `json.loads` raise) and the `Link` header. -/
structure HttpOk where
  body : Option JsonV
  linkHeader : Option String

/-- Outcome of one `urlopen` call. -/
inductive ServerResp where
  | httpErr (message : String)
  | ok (response : HttpOk)

/-- Exceptions `get_json_from_url` can raise. -/
inductive FetchErr where
  | httpError (message : String)
  | jsonDecodeError
  | timeoutError
deriving DecidableEq

/-- The dictionary returned by `get_json_from_url`.  `page_count` is
`Sum.inl` for the Python `int` values `0`/`1` and `Sum.inr` for the
`str` value sliced out of the `Link` header. -/
structure FetchResult where
  jsonData : JsonV
  additionalPages : Bool
  pageCount : Sum Nat String

def relNextMarker : String := ">; rel=\"next\""

def relLastMarker : String := ">; rel=\"last\""

/-- Embeds `re.split("[?&>]", link)`. -/
def reSplitQuery (link : String) : List String :=
  (splitChars (fun c => c = '?' || c = '&' || c = '>') link.data).map ofChars

/-- Inner loop of the `Link`-header scan: for each `rel="last"` link,
every `page=`-prefixed piece overwrites `page_count` with
`parameter.split('=')[1]` (a Python `str`). -/
def scanLinkForLast (acc : Sum Nat String) (link : String) : Sum Nat String :=
  if pyTakeLast 13 link == relLastMarker then
    (reSplitQuery link).foldl
      (fun acc2 parameter =>
        if pyTake 5 parameter == "page=" then
          Sum.inr ((pySplitChar '=' parameter).getD 1 "")
        else acc2)
      acc
  else acc

/-- The `page_count` as computed from a present `Link` header value for a
non-empty body: starts at the `int` `1`, then the comma-separated links
are scanned. -/
def pageCountOfLink (linkValue : String) : Sum Nat String :=
  (pySplitChar ',' linkValue).foldl scanLinkForLast (Sum.inl 1)

/-- The `additional_pages` flag from the `Link` header:
`find(">; rel=\"next\"") != -1`. -/
def additionalPagesOfLink (linkValue : String) : Bool :=
  containsSub relNextMarker.data linkValue.data

/-- Body of the `with urlopen(...)` block of `get_json_from_url`: decode
the body (raising `json.decoder.JSONDecodeError` on failure), then derive
the pagination metadata. -/
def processResponse (r : HttpOk) : Except FetchErr FetchResult :=
  match r.body with
  | none => .error .jsonDecodeError
  | some jsonData =>
    if jsonFalsy jsonData then .ok ⟨jsonData, false, Sum.inl 0⟩
    else
      match r.linkHeader with
      | none => .ok ⟨jsonData, false, Sum.inl 1⟩
      | some linkValue =>
        .ok ⟨jsonData, additionalPagesOfLink linkValue, pageCountOfLink linkValue⟩

/-- The `while retry_count <= urlopen_maximum_retries` loop of
`get_json_from_url`.  The fuel argument is the number of loop iterations
still allowed; the second component counts `urlopen` attempts made. -/
def getJsonFromUrlLoop (server : Nat → ServerResp) :
    Nat → Nat → Except FetchErr FetchResult × Nat
  | 0, attempts => (.error .timeoutError, attempts)
  | fuel + 1, attempts =>
    match server attempts with
    | .ok r => (processResponse r, attempts + 1)
    | .httpErr message =>
      if determineUrlopenRetry message then
        getJsonFromUrlLoop server fuel (attempts + 1)
      else (.error (.httpError message), attempts + 1)

/-- Embeds `get_json_from_url`: up to `urlopen_maximum_retries + 1` attempts,
then `TimeoutError`.  Returns the result together with the number of
attempts performed. -/
def getJsonFromUrl (server : Nat → ServerResp) : Except FetchErr FetchResult × Nat :=
  getJsonFromUrlLoop server (urlopenMaximumRetries + 1) 0

/-- Specification-level view of the `Link` scan: the `page=` values of a
`rel="last"` link, in scan order. -/
def lastLinkPageCandidates (link : String) : List String :=
  if pyTakeLast 13 link == relLastMarker then
    ((reSplitQuery link).filter (fun p => pyTake 5 p == "page=")).map
      (fun p => (pySplitChar '=' p).getD 1 "")
  else []

/-- Specification-level view: the value the imperative overwrite loop
leaves in `page_count`, namely the last candidate over all links. -/
def lastPageParam (linkValue : String) : Option String :=
  (((pySplitChar ',' linkValue).map lastLinkPageCandidates).flatten).getLast?

/-! ## JSON descriptor parser (`parse_library_dot_json`)

The fetch of `library.json` is abstracted to its outcome; the cells the
parser writes are recorded as the Python value assigned (cells written
through `str(...)` keep the looked-up value; the polymorphic fields never
go through `str`).  A `.error ()` result is an uncaught Python
`TypeError`/`ValueError` escaping the function. -/

/-- One element of `dict(iterable)`: Python accepts any length-2
iterable as a key/value pair (a 2-list, a 2-character string, or even a
2-key mapping, which contributes its two keys); unhashable keys and
wrongly-sized elements raise. -/
def dictPairOfItem : JsonV → Except Unit (JsonV × JsonV)
  | .jarr [k, v] =>
    match k with
    | .jarr _ => .error ()
    | .jobj _ => .error ()
    | _ => .ok (k, v)
  | .jstr s =>
    match s.data with
    | [c1, c2] => .ok (.jstr (ofChars [c1]), .jstr (ofChars [c2]))
    | _ => .error ()
  | .jobj [f1, f2] => .ok (.jstr f1.1, .jstr f2.1)
  | _ => .error ()

/-- Embeds `dict(get_json_from_url(...)["json_data"])` at the top of
`parse_library_dot_json`: a decoded object passes through, other decoded
values go through Python's `dict(iterable)` protocol (raising for
non-iterables and ill-shaped elements). -/
def dictOfJson : JsonV → Except Unit (List (JsonV × JsonV))
  | .jobj fields => .ok (fields.map (fun f => (JsonV.jstr f.1, f.2)))
  | .jarr items => items.mapM dictPairOfItem
  | .jstr s => if s.data.isEmpty then .ok [] else .error ()
  | _ => .error ()

/-- Lookup `json_data[key]` on the converted dictionary (`none` = `KeyError`). -/
def lookupDict (d : List (JsonV × JsonV)) (key : String) : Option JsonV :=
  (d.find? (fun f =>
    match f.1 with
    | .jstr s => s == key
    | _ => false)).map (fun f => f.2)

/-- The cells `parse_library_dot_json` fills (columns
`platformio_name` … `platformio_platforms`), holding the Python value
each assignment stores. -/
structure PioCells where
  pioName : Option JsonV := none
  pioDescription : Option JsonV := none
  pioKeywords : Option JsonV := none
  pioAuthors : Option JsonV := none
  pioRepository : Option JsonV := none
  pioVersion : Option JsonV := none
  pioLicense : Option JsonV := none
  pioDownloadUrl : Option JsonV := none
  pioHomepage : Option JsonV := none
  pioFrameworks : Option JsonV := none
  pioPlatforms : Option JsonV := none

/-- Error raised while generating `author["name"]` for the elements of an
`authors` list: a `KeyError` (caught by the surrounding handler) or a
`TypeError` (uncaught). -/
inductive AuthorsErr where
  | keyErr
  | typeErr

/-- The generator `(author["name"] for author in json_data["authors"])`,
evaluated left to right: a non-mapping element raises `TypeError`, a
mapping without a `name` key raises `KeyError`. -/
def authorNamesFromList : List JsonV → Except AuthorsErr (List JsonV)
  | [] => .ok []
  | .jobj fields :: rest =>
    match jsonLookup fields "name" with
    | none => .error .keyErr
    | some v => (authorNamesFromList rest).map (fun names => v :: names)
  | _ :: _ => .error .typeErr

/-- The `str`-only check `str.join` performs on its items. -/
def allStrings : List JsonV → Option (List String)
  | [] => some []
  | .jstr s :: rest => (allStrings rest).map (fun strs => s :: strs)
  | _ :: _ => none

/-- The `authors` branch of `parse_library_dot_json`: list → join of the
member `name`s (a `KeyError` is caught and skips the field, a `TypeError`
— from a non-mapping element or a non-`str` name — escapes), mapping →
its raw `name` value, string → itself, anything else → logged and
skipped. -/
def authorsCell (v : JsonV) : Except Unit (Option JsonV) :=
  match v with
  | .jarr items =>
    match authorNamesFromList items with
    | .error .keyErr => .ok none
    | .error .typeErr => .error ()
    | .ok names =>
      match allStrings names with
      | some strs => .ok (some (.jstr (String.intercalate ", " strs)))
      | none => .error ()
  | .jobj fields =>
    match jsonLookup fields "name" with
    | none => .ok none
    | some nameValue => .ok (some nameValue)
  | .jstr s => .ok (some (.jstr s))
  | _ => .ok none

/-- The `frameworks`/`platforms` branch: list → `", ".join(...)` (a
non-`str` element raises an uncaught `TypeError`), string → itself,
anything else → logged and skipped. -/
def strListCell (v : JsonV) : Except Unit (Option JsonV) :=
  match v with
  | .jarr items =>
    match allStrings items with
    | some strs => .ok (some (.jstr (String.intercalate ", " strs)))
    | none => .error ()
  | .jstr s => .ok (some (.jstr s))
  | _ => .ok none

/-- The `repository` field: `str(json_data["repository"]["url"])` with
both `KeyError` and `TypeError` caught, so any failure just skips the
field. -/
def repositoryCell (v : JsonV) : Option JsonV :=
  match v with
  | .jobj fields => jsonLookup fields "url"
  | _ => none

/-- The field-filling body of `parse_library_dot_json`, in source order.
Fields absent from the object are skipped (`except KeyError: pass`). -/
def parseJsonFields (jsonData : JsonV) : Except Unit PioCells := do
  let d ← dictOfJson jsonData
  let pioName := lookupDict d "name"
  let pioDescription := lookupDict d "description"
  let pioKeywords := lookupDict d "keywords"
  let pioAuthors ←
    match lookupDict d "authors" with
    | none => pure none
    | some v => authorsCell v
  let pioRepository := (lookupDict d "repository").bind repositoryCell
  let pioVersion := lookupDict d "version"
  let pioLicense := lookupDict d "license"
  let pioDownloadUrl := lookupDict d "downloadUrl"
  let pioHomepage := lookupDict d "homepage"
  let pioFrameworks ←
    match lookupDict d "frameworks" with
    | none => pure none
    | some v => strListCell v
  let pioPlatforms ←
    match lookupDict d "platforms" with
    | none => pure none
    | some v => strListCell v
  pure ⟨pioName, pioDescription, pioKeywords, pioAuthors, pioRepository, pioVersion,
        pioLicense, pioDownloadUrl, pioHomepage, pioFrameworks, pioPlatforms⟩

/-- Outcome of the `get_json_from_url` call for `library.json`. -/
inductive LibraryJsonFetch where
  | transportFail
  | decodeFail
  | ok (jsonData : JsonV)

/-- Embeds `parse_library_dot_json`: transport failure → `False`; decode failure
→ `True` with nothing parsed; otherwise fill the cells and return `True`
(unless an uncaught exception escapes first). -/
def parseLibraryDotJson : LibraryJsonFetch → Except Unit (Bool × PioCells)
  | .transportFail => .ok (false, {})
  | .decodeFail => .ok (true, {})
  | .ok jsonData => (parseJsonFields jsonData).map (fun cells => (true, cells))

/-! ## Manifest descriptor parser (`parse_library_dot_properties`) -/

/-- The cells `parse_library_dot_properties` fills (columns
`library_manager_name` … `library_manager_architectures`). -/
structure LmCells where
  lmName : String := ""
  lmVersion : String := ""
  lmAuthor : String := ""
  lmMaintainer : String := ""
  lmSentence : String := ""
  lmParagraph : String := ""
  lmCategory : String := ""
  lmUrl : String := ""
  lmArchitectures : String := ""

/-- One line of `library.properties`: split on the first `=`; the
stripped left side selects one of nine recognized fields which receives
the raw right side; anything else is ignored. -/
def parsePropertiesLine (row : LmCells) (line : String) : LmCells :=
  let field := pySplitChar '=' line
  if field.length > 1 then
    let fieldName := pyStrip (field.getD 0 "")
    let fieldValue := String.intercalate "=" field.tail
    if fieldName == "name" then { row with lmName := fieldValue }
    else if fieldName == "version" then { row with lmVersion := fieldValue }
    else if fieldName == "author" then { row with lmAuthor := fieldValue }
    else if fieldName == "maintainer" then { row with lmMaintainer := fieldValue }
    else if fieldName == "sentence" then { row with lmSentence := fieldValue }
    else if fieldName == "paragraph" then { row with lmParagraph := fieldValue }
    else if fieldName == "category" then { row with lmCategory := fieldValue }
    else if fieldName == "url" then { row with lmUrl := fieldValue }
    else if fieldName == "architectures" then { row with lmArchitectures := fieldValue }
    else row
  else row

/-- Outcome of one raw `urlopen` of `library.properties`. -/
inductive PropsResp where
  | httpErr (message : String)
  | ok (content : String)

/-- The retry loop of `parse_library_dot_properties`.  Unlike
`get_json_from_url` there is no statement after the loop, so exhausting
the retries falls off the function and yields Python `None` (the
`Option Bool` is the Python return value: `True`, `False` or `None`).
The third component counts `urlopen` attempts. -/
def parseLibraryDotPropertiesLoop (server : Nat → PropsResp) (row : LmCells) :
    Nat → Nat → Option Bool × LmCells × Nat
  | 0, attempts => (none, row, attempts)
  | fuel + 1, attempts =>
    match server attempts with
    | .ok content =>
      (some true, (pySplitLines content).foldl parsePropertiesLine row, attempts + 1)
    | .httpErr message =>
      if determineUrlopenRetry message then
        parseLibraryDotPropertiesLoop server row fuel (attempts + 1)
      else (some false, row, attempts + 1)

/-- Embeds `parse_library_dot_properties`. -/
def parseLibraryDotProperties (server : Nat → PropsResp) (row : LmCells) :
    Option Bool × LmCells × Nat :=
  parseLibraryDotPropertiesLoop server row (urlopenMaximumRetries + 1) 0

/-- Python truthiness of the `Option Bool` return value, as tested by
`if parse_library_dot_properties(...)` in `find_library_folder`. -/
def optionBoolTruthy : Option Bool → Bool
  | none => false
  | some b => b

/-! ## Library Locator (`find_library_folder`)

The repository-contents endpoint is abstracted as a `ContentsApi`; each
request yields either one of the exceptions `find_library_folder`
handles or a page of directory entries plus the more-pages flag.  The
returned pair carries the located folder and, as an observation, the
number of subfolder-contents requests issued. -/

inductive EntryType where
  | file
  | dir
deriving DecidableEq

/-- One entry of a contents listing. -/
structure DirEntry where
  type : EntryType
  name : String

/-- Outcome of one contents request (after `get_github_api_response`):
an `HTTPError` (the empty-repository 404), a `JSONDecodeError`, a
`TimeoutError` after retry exhaustion, or a decoded page. -/
inductive PageResult where
  | httpErr
  | decodeErr
  | timeoutErr
  | ok (entries : List DirEntry) (more : Bool)

/-- The contents endpoint: root pages by page number, and subfolder
pages by folder name and page number. -/
structure ContentsApi where
  root : Nat → PageResult
  sub : String → Nat → PageResult

/-- Header-file test of the classification loop: a file whose name
contains a `.` and ends in one of the three header extensions. -/
def isHeaderFile (e : DirEntry) : Bool :=
  e.type == .file && (pySplitChar '.' e.name).length > 1 &&
    (pyEndsWith e.name ".h" || pyEndsWith e.name ".hh" || pyEndsWith e.name ".hpp")

/-- Sketch-file test (verify mode only): `.ino` or `.pde`. -/
def isSketchFile (e : DirEntry) : Bool :=
  e.type == .file && (pySplitChar '.' e.name).length > 1 &&
    (pyEndsWith e.name ".ino" || pyEndsWith e.name ".pde")

/-- Examples-directory test (verify mode only): six exact name variants. -/
def isExamplesFolder (e : DirEntry) : Bool :=
  e.type == .dir &&
    (e.name == "examples" || e.name == "example" || e.name == "Examples" ||
     e.name == "Example" || e.name == "EXAMPLES" || e.name == "EXAMPLE")

/-- One step of the root-listing classification loop over
`(header_file_in_root, sketch_file_in_root, examples_folder_in_root)`:
the header check always runs; the sketch/examples `if`/`elif` pair only
in verify mode. -/
def classifyEntry (verify : Bool) (flags : Bool × Bool × Bool) (e : DirEntry) :
    Bool × Bool × Bool :=
  let header := if isHeaderFile e then true else flags.1
  if verify then
    if isSketchFile e then (header, true, flags.2.2)
    else if isExamplesFolder e then (header, flags.2.1, true)
    else (header, flags.2.1, flags.2.2)
  else (header, flags.2.1, flags.2.2)

/-- The classification flags for one root page; they are re-initialized
to `False` for every page. -/
def classifyRoot (verify : Bool) (entries : List DirEntry) : Bool × Bool × Bool :=
  entries.foldl (classifyEntry verify) (false, false, false)

/-- The scan of one subfolder page: a header file or either descriptor
file marks the folder (the descriptor parses mutate only metadata cells
and their return values are ignored here). -/
def subPageFind (folderName : String) (entries : List DirEntry) : Option String :=
  entries.foldl
    (fun libraryFolder e =>
      if isHeaderFile e then some folderName
      else if e.type == .file && e.name == "library.properties" then some folderName
      else if e.type == .file && e.name == "library.json" then some folderName
      else libraryFolder)
    none

/-- Result of paginating one subfolder: either the folder was returned
from inside the loop, or the loop finished and left behind its final
`page_number` and `additional_pages` values (the source reuses the root
loop's variables for the subfolder scan, so these leak outward). -/
inductive SubOutcome where
  | found (folder : String)
  | exhausted (pageNumber : Nat) (additionalPages : Bool)

/-- The `while additional_pages` loop over one subfolder's pages.  A
request failure `break`s, leaving `page_number` and `additional_pages`
as they were.  The last component counts subfolder requests. -/
def subPagesLoop (api : ContentsApi) (folderName : String) :
    Nat → Nat → Bool → Nat → SubOutcome × Nat
  | 0, pageNumber, additionalPages, fetchCount =>
    (.exhausted pageNumber additionalPages, fetchCount)
  | fuel + 1, pageNumber, additionalPages, fetchCount =>
    if additionalPages then
      match api.sub folderName pageNumber with
      | .ok entries more =>
        match subPageFind folderName entries with
        | some folder => (.found folder, fetchCount + 1)
        | none => subPagesLoop api folderName fuel (pageNumber + 1) more (fetchCount + 1)
      | _ => (.exhausted pageNumber additionalPages, fetchCount + 1)
    else (.exhausted pageNumber additionalPages, fetchCount)

/-- The `for root_directory_item in root_directory_listing` subfolder
scan (non-verify mode): each non-dot directory resets `page_number` to 1
and `additional_pages` to `True` and paginates; the first folder with a
signal is returned.  (Python would raise `IndexError` on an empty entry
name; the API never produces one, and such an entry is not scanned
here.) -/
def subScanItems (api : ContentsApi) (fuel : Nat) :
    List DirEntry → Nat → Bool → Nat → Option String × Nat × Bool × Nat
  | [], pageNumber, additionalPages, fetchCount =>
    (none, pageNumber, additionalPages, fetchCount)
  | e :: rest, pageNumber, additionalPages, fetchCount =>
    if e.type == .dir &&
        (match e.name.data with
         | c :: _ => c ≠ '.'
         | [] => false) then
      match subPagesLoop api e.name fuel 1 true fetchCount with
      | (.found folder, fetchCount') => (some folder, 1, true, fetchCount')
      | (.exhausted pageNumber' additionalPages', fetchCount') =>
        subScanItems api fuel rest pageNumber' additionalPages' fetchCount'
    else subScanItems api fuel rest pageNumber additionalPages fetchCount

/-- The `while additional_pages` loop over root pages.  A request
failure returns `None` in every mode (empty repository, unparsable
listing, retry timeout).  In verify mode the decision is taken at the
end of the page; otherwise a root header file accepts `/` and the
subfolder scan runs, whose leaked `page_number`/`additional_pages`
drive the next iteration exactly as in the source. -/
def rootLoop (api : ContentsApi) (verify : Bool) :
    Nat → Nat → Bool → Nat → Option String × Nat
  | 0, _, _, fetchCount => (none, fetchCount)
  | fuel + 1, pageNumber, additionalPages, fetchCount =>
    if additionalPages then
      match api.root pageNumber with
      | .httpErr => (none, fetchCount)
      | .decodeErr => (none, fetchCount)
      | .timeoutErr => (none, fetchCount)
      | .ok entries more =>
        let flags := classifyRoot verify entries
        if verify then
          if !flags.1 || (flags.1 && flags.2.1 && !flags.2.2) then (none, fetchCount)
          else (some "/", fetchCount)
        else if flags.1 then (some "/", fetchCount)
        else
          match subScanItems api fuel entries (pageNumber + 1) more fetchCount with
          | (some folder, _, _, fetchCount') => (some folder, fetchCount')
          | (none, pageNumber', additionalPages', fetchCount') =>
            rootLoop api verify fuel pageNumber' additionalPages' fetchCount'
    else (none, fetchCount)

/-- Embeds `find_library_folder`.  Here `propsFound`/`jsonFound` are the truthiness
of the two root descriptor parses attempted first (their side effects
touch only metadata cells); if either held, `/` is returned without any
contents request.  The second component counts subfolder-contents
requests issued. -/
def findLibraryFolder (api : ContentsApi) (propsFound jsonFound : Bool)
    (verify : Bool) (fuel : Nat) : Option String × Nat :=
  let libraryFolder : Option String := if propsFound then some "/" else none
  let libraryFolder := if jsonFound then some "/" else libraryFolder
  match libraryFolder with
  | some folder => (some folder, 0)
  | none => rootLoop api verify fuel 1 true 0

/-! ## Catalog rows (`populate_row`, `initialize_table`)

A row is the 36-cell list indexed by `Column`; only the cells the claims
inspect get named indexes. -/

def colRepositoryUrl : Nat := 0

def colLibraryPath : Nat := 4

def colCount : Nat := 36

/-- Embeds `get_repository_license`: `None` → `"none"`, object with `spdx_id`
`None` → `"unrecognized"`, otherwise the identifier. -/
def getRepositoryLicense (license : Option (Option String)) : String :=
  match license with
  | none => "none"
  | some none => "unrecognized"
  | some (some spdxId) => spdxId

/-- Python `str` of a boolean. -/
def pyBoolStr (b : Bool) : String := if b then "True" else "False"

/-- Python `str` of a nullable string (`str(None) = "None"`). -/
def pyOptStr : Option String → String
  | none => "None"
  | some s => s

/-- The per-cell cleanup of `populate_row`:
`cell.replace('\t', "    ").strip()`. -/
def sanitizeCell (s : String) : String := pyStrip (pyReplaceTabs s)

/-- The repository-object fields `populate_row` consumes. -/
structure RepoObject where
  htmlUrl : String
  ownerLogin : String
  name : String
  defaultBranch : String
  archived : Bool
  fork : Bool
  pushedAt : String
  forksCount : Nat
  stargazersCount : Nat
  language : Option String
  description : Option String
  topics : List String
  license : Option (Option String)

/-- One call to `populate_row`, with the network-dependent ingredients
(the locator outcome, the contributor count, and the 20 descriptor cells
the locator's parses wrote into columns 16–35) supplied as data. -/
structure RowFeed where
  repo : RepoObject
  inLibraryManager : Bool
  verify : Bool
  libraryFolder : Option String
  contributorCount : String
  metaCells : List String

/-- The row `populate_row` assembles (before appending), cells in
`Column` order, each passed through `sanitizeCell`. -/
def buildRow (feed : RowFeed) (libraryPathCell : String) : List String :=
  ([feed.repo.htmlUrl,
    feed.repo.ownerLogin,
    feed.repo.name,
    feed.repo.defaultBranch,
    libraryPathCell,
    pyBoolStr feed.repo.archived,
    pyBoolStr feed.repo.fork,
    feed.repo.pushedAt,
    toString feed.repo.forksCount,
    toString feed.repo.stargazersCount,
    feed.contributorCount,
    getRepositoryLicense feed.repo.license,
    pyOptStr feed.repo.language,
    (match feed.repo.description with
     | some d => d
     | none => ""),
    String.intercalate ", " feed.repo.topics,
    pyBoolStr feed.inLibraryManager] ++
   (feed.metaCells ++ List.replicate 20 "").take 20).map sanitizeCell

/-- Reads `readRow[Column.repository_url]` (and the other cells). -/
def cellAt (row : List String) (i : Nat) : String := row.getD i ""

/-- Embeds `populate_row`: drop the repository if its `html_url` equals the URL
cell of any existing row; otherwise run the locator outcome through the
verify policy and append the assembled row. -/
def populateRow (table : List (List String)) (feed : RowFeed) : List (List String) :=
  if table.any (fun readRow => cellAt readRow colRepositoryUrl == feed.repo.htmlUrl) then
    table
  else
    match feed.libraryFolder with
    | none =>
      if feed.verify then table
      else table ++ [buildRow feed ""]
    | some folder => table ++ [buildRow feed folder]

/-- Feeding a sequence of repositories to the row-population step. -/
def processFeeds (table : List (List String)) (feeds : List RowFeed) :
    List (List String) :=
  feeds.foldl populateRow table

/-- The heading row written by `initialize_table`. -/
def headerRow : List String :=
  ["Repository URL \x1b \x1b", "Owner \x1b \x1b", "Repo Name \x1b \x1b",
   "Default Branch \x1b \x1b", "Library Path \x1b \x1b", "Archived \x1b \x1b",
   "Fork \x1b \x1b", "Last Push \x1b \x1b", "#Forks \x1b \x1b", "#Stars \x1b \x1b",
   "#Contributors \x1b \x1b", "License \x1b \x1b", "Language \x1b \x1b",
   "Repo Description \x1b \x1b", "GitHub Topics \x1b \x1b", "In Library Manager \x1b \x1b",
   "LM name \x1b \x1b", "LM version \x1b \x1b", "LM author \x1b \x1b",
   "LM maintainer \x1b \x1b", "LM sentence \x1b \x1b", "LM paragraph \x1b \x1b",
   "LM category \x1b \x1b", "LM url \x1b \x1b", "LM architectures \x1b \x1b",
   "PIO name \x1b \x1b", "PIO description \x1b \x1b", "PIO keywords \x1b \x1b",
   "PIO authors \x1b \x1b", "PIO repository \x1b \x1b", "PIO version \x1b \x1b",
   "PIO license \x1b \x1b", "PIO downloadUrl \x1b \x1b", "PIO homepage \x1b \x1b",
   "PIO frameworks \x1b \x1b", "PIO platforms \x1b \x1b"]

/-- The table as `initialize_table` leaves it. -/
def initialTable : List (List String) := [headerRow]

/-! ## Rate Limiter (`check_rate_limiting`)

The cached `last_api_requests_remaining_value` dictionary and the effect
of one `check_rate_limiting` call.  The wait loop itself only prints and
sleeps; the observable effect is the flag that it was entered. -/

inductive ApiType where
  | search
  | core
deriving DecidableEq

/-- The global `last_api_requests_remaining_value` dictionary. -/
structure RateState where
  searchRemaining : Nat
  coreRemaining : Nat

def RateState.get : RateState → ApiType → Nat
  | st, .search => st.searchRemaining
  | st, .core => st.coreRemaining

def RateState.set : RateState → ApiType → Nat → RateState
  | st, .search, v => { st with searchRemaining := v }
  | st, .core, v => { st with coreRemaining := v }

/-- One `/rate_limit` status response: the per-pool `remaining` values in
the body, plus the `X-RateLimit-Remaining` response header that
`get_json_from_url` pushes into the core-pool cache for every non-search
`api.github.com` URL (the status endpoint included). -/
structure RateLimitStatus where
  remaining : ApiType → Nat
  headerCoreRemaining : Option Nat

/-- Embeds `check_rate_limiting`: with a nonzero cached value, return at once;
otherwise refresh from the status endpoint (whose fetch pushes the
header value into the core cache first, then the body value overwrites
the requested pool) and, if the authoritative count is zero, wait until
the reset time — deliberately leaving the cached value at zero.  The
boolean records whether the wait branch was taken. -/
def checkRateLimiting (st : RateState) (apiType : ApiType) (status : RateLimitStatus) :
    RateState × Bool :=
  if st.get apiType == 0 then
    let st1 :=
      match status.headerCoreRemaining with
      | some v => st.set .core v
      | none => st
    let st2 := st1.set apiType (status.remaining apiType)
    (st2, status.remaining apiType == 0)
  else (st, false)

/-- The branch condition of `check_rate_limiting`: a zero cached value
forces the authoritative status query on the next call. -/
def forcesStatusQuery (st : RateState) (apiType : ApiType) : Bool :=
  st.get apiType == 0

/-! ## Helper lemmas -/

theorem rateStateGetSet (st : RateState) (t : ApiType) (v : Nat) :
    (st.set t v).get t = v := by
  cases t <;> rfl

theorem getJsonFromUrlLoopTimeout (server : Nat → ServerResp) (msg : String)
    (hall : ∀ n, server n = .httpErr msg) (hretry : determineUrlopenRetry msg = true) :
    ∀ fuel attempts,
      getJsonFromUrlLoop server fuel attempts = (.error .timeoutError, attempts + fuel) := by
  intro fuel
  induction fuel with
  | zero => intro attempts; rfl
  | succ n ih =>
    intro attempts
    simp [getJsonFromUrlLoop, hall attempts, hretry, ih (attempts + 1)]
    omega

theorem getJsonFromUrlLoopOk (server : Nat → ServerResp) :
    ∀ fuel attempts res cnt,
      getJsonFromUrlLoop server fuel attempts = (.ok res, cnt) →
      ∃ k r, server k = .ok r ∧ processResponse r = .ok res := by
  intro fuel
  induction fuel with
  | zero =>
    intro attempts res cnt h
    simp [getJsonFromUrlLoop] at h
  | succ n ih =>
    intro attempts res cnt h
    rw [getJsonFromUrlLoop] at h
    cases hs : server attempts with
    | ok r =>
      rw [hs] at h
      exact ⟨attempts, r, hs, (Prod.ext_iff.mp h).1⟩
    | httpErr msg =>
      simp only [hs] at h
      by_cases hr : determineUrlopenRetry msg = true
      · simp only [hr, if_true] at h
        exact ih (attempts + 1) res cnt h
      · rw [if_neg hr] at h
        simp at h

theorem foldlOverwriteIf {α : Type} (cond : α → Bool) (val : α → String)
    (params : List α) (acc : Sum Nat String) :
    params.foldl (fun a p => if cond p then Sum.inr (val p) else a) acc =
      ((params.filter cond).map val).foldl (fun _ c => Sum.inr c) acc := by
  induction params generalizing acc with
  | nil => rfl
  | cons p rest ih => cases hc : cond p <;> simp [List.filter_cons, hc, ih]

theorem foldlOverwriteGetLast (cs : List String) (acc : Sum Nat String) :
    cs.foldl (fun _ c => Sum.inr c) acc = ((cs.getLast?).map Sum.inr).getD acc := by
  induction cs generalizing acc with
  | nil => rfl
  | cons c rest ih =>
    rw [List.foldl_cons, ih]
    cases rest with
    | nil => rfl
    | cons c2 rest2 =>
      rw [List.getLast?_cons_cons]
      have hne : (c2 :: rest2).getLast? ≠ none := by
        simp [List.getLast?_eq_none_iff]
      obtain ⟨v, hv⟩ := Option.ne_none_iff_exists'.mp hne
      simp [List.getLast?_cons_cons, hv]

theorem scanLinkForLastEq (acc : Sum Nat String) (link : String) :
    scanLinkForLast acc link =
      (lastLinkPageCandidates link).foldl (fun _ c => Sum.inr c) acc := by
  rw [scanLinkForLast, lastLinkPageCandidates]
  by_cases hm : (pyTakeLast 13 link == relLastMarker) = true
  · rw [if_pos hm, if_pos hm]
    exact foldlOverwriteIf _ _ _ _
  · rw [if_neg hm, if_neg hm]
    rfl

theorem pageCountOfLinkEq (linkValue : String) :
    pageCountOfLink linkValue =
      ((lastPageParam linkValue).map Sum.inr).getD (Sum.inl 1) := by
  rw [pageCountOfLink, lastPageParam]
  have hgen : ∀ (links : List String) (acc : Sum Nat String),
      links.foldl scanLinkForLast acc =
        ((links.map lastLinkPageCandidates).flatten).foldl (fun _ c => Sum.inr c) acc := by
    intro links
    induction links with
    | nil => intro acc; rfl
    | cons l rest ih =>
      intro acc
      rw [List.foldl_cons, ih, List.map_cons, List.flatten_cons, List.foldl_append,
        scanLinkForLastEq]
  rw [hgen, foldlOverwriteGetLast]

/-! ## Claim C4 — retry bound of the Resilient Fetcher -/

/-- C4: a fetch whose every attempt yields one of the three retryable
HTTP statuses is attempted exactly `urlopen_maximum_retries + 1 = 6`
times and then fails with `TimeoutError`; any other HTTP error fails
immediately after 1 attempt with the `HTTPError` re-raised; a JSON-decode
failure of a retrieved body is raised to the caller after 1 attempt. -/
theorem fetchRetryBound :
    (∀ (server : Nat → ServerResp) (msg : String),
      (∀ n, server n = .httpErr msg) → determineUrlopenRetry msg = true →
      getJsonFromUrl server = (.error .timeoutError, 6)) ∧
    (∀ (server : Nat → ServerResp) (msg : String),
      server 0 = .httpErr msg → determineUrlopenRetry msg = false →
      getJsonFromUrl server = (.error (.httpError msg), 1)) ∧
    (∀ (server : Nat → ServerResp) (r : HttpOk),
      server 0 = .ok r → r.body = none →
      getJsonFromUrl server = (.error .jsonDecodeError, 1)) := by
  refine ⟨fun server msg hall hretry => ?_, fun server msg h0 hretry => ?_,
    fun server r h0 hbody => ?_⟩
  · rw [getJsonFromUrl, getJsonFromUrlLoopTimeout server msg hall hretry]
    rfl
  · simp [getJsonFromUrl, getJsonFromUrlLoop, h0, hretry]
  · simp [getJsonFromUrl, getJsonFromUrlLoop, h0, processResponse, hbody]

def c4RetryServer : Nat → ServerResp := fun _ => .httpErr "HTTP Error 502: Bad Gateway"

def c4FatalServer : Nat → ServerResp := fun _ => .httpErr "HTTP Error 404: Not Found"

def c4BadJsonServer : Nat → ServerResp := fun _ => .ok ⟨none, none⟩

/-- C4 witness: the three branches of `fetchRetryBound` at concrete
servers. -/
theorem fetchRetryBound_witness :
    getJsonFromUrl c4RetryServer = (.error .timeoutError, 6) ∧
    getJsonFromUrl c4FatalServer = (.error (.httpError "HTTP Error 404: Not Found"), 1) ∧
    getJsonFromUrl c4BadJsonServer = (.error .jsonDecodeError, 1) :=
  ⟨fetchRetryBound.1 c4RetryServer _ (fun _ => rfl) (by decide),
   fetchRetryBound.2.1 c4FatalServer _ rfl (by decide),
   fetchRetryBound.2.2 c4BadJsonServer ⟨none, none⟩ rfl rfl⟩

/-! ## Claim C5 — total page count of a successful fetch -/

def c5Server : Nat → ServerResp := fun _ =>
  .ok ⟨some (.jarr [.jnum 1]),
       some "<https://api.github.com/x?page=5&per_page=100>; rel=\"last\""⟩

/-- C5 counterexample: on a successful fetch whose `Link` header carries
a `last` relation, `page_count` is the Python string `"5"` sliced out of
the header (`Sum.inr`), not an integer — refuting the claim that the
returned `total_page_count` is always an integer. -/
theorem pageCountIsString_counterexample :
    getJsonFromUrl c5Server = (.ok ⟨.jarr [.jnum 1], false, Sum.inr "5"⟩, 1) ∧
    (Sum.inr "5" : Sum Nat String).isLeft = false := by
  exact ⟨rfl, rfl⟩

/-- C5 amended: every successful fetch result comes from
`processResponse` on some attempt's response; `page_count` is the integer
0 when the decoded body is Python-falsy, the integer 1 when the `Link`
header is absent or carries no `page=` parameter inside a `last`
relation, and otherwise the page-number STRING extracted from the last
such parameter. -/
theorem pageCountDerivation_amended :
    (∀ (server : Nat → ServerResp) (res : FetchResult) (cnt : Nat),
      getJsonFromUrl server = (.ok res, cnt) →
      ∃ k r, server k = .ok r ∧ processResponse r = .ok res) ∧
    (∀ (r : HttpOk) (jsonData : JsonV), r.body = some jsonData →
      jsonFalsy jsonData = true →
      processResponse r = .ok ⟨jsonData, false, Sum.inl 0⟩) ∧
    (∀ (r : HttpOk) (jsonData : JsonV), r.body = some jsonData →
      jsonFalsy jsonData = false → r.linkHeader = none →
      processResponse r = .ok ⟨jsonData, false, Sum.inl 1⟩) ∧
    (∀ (r : HttpOk) (jsonData : JsonV) (linkValue : String), r.body = some jsonData →
      jsonFalsy jsonData = false → r.linkHeader = some linkValue →
      processResponse r =
        .ok ⟨jsonData, additionalPagesOfLink linkValue,
             ((lastPageParam linkValue).map Sum.inr).getD (Sum.inl 1)⟩) := by
  refine ⟨fun server res cnt h => getJsonFromUrlLoopOk server _ 0 res cnt h,
    fun r jsonData hb hf => ?_, fun r jsonData hb hf hl => ?_,
    fun r jsonData linkValue hb hf hl => ?_⟩
  · simp [processResponse, hb, hf]
  · simp [processResponse, hb, hf, hl]
  · simp [processResponse, hb, hf, hl, pageCountOfLinkEq]

/-- C5 witness: the amended characterization at concrete responses —
a falsy body, a body with no header, and the `c5Server` response whose
extracted page parameter is the string `"5"`. -/
theorem pageCountDerivation_amended_witness :
    processResponse ⟨some (.jarr []), none⟩ = .ok ⟨.jarr [], false, Sum.inl 0⟩ ∧
    processResponse ⟨some (.jnum 7), none⟩ = .ok ⟨.jnum 7, false, Sum.inl 1⟩ ∧
    processResponse ⟨some (.jarr [.jnum 1]),
        some "<https://api.github.com/x?page=5&per_page=100>; rel=\"last\""⟩ =
      .ok ⟨.jarr [.jnum 1],
           additionalPagesOfLink "<https://api.github.com/x?page=5&per_page=100>; rel=\"last\"",
           ((lastPageParam "<https://api.github.com/x?page=5&per_page=100>; rel=\"last\"").map
             Sum.inr).getD (Sum.inl 1)⟩ :=
  ⟨pageCountDerivation_amended.2.1 _ _ rfl rfl,
   pageCountDerivation_amended.2.2.1 _ _ rfl rfl rfl,
   pageCountDerivation_amended.2.2.2 _ _ _ rfl rfl rfl⟩

/-! ## Claim C8 — the cached counter stays zero after a rate-limit wait -/

/-- C8: when `check_rate_limiting` takes the wait branch (the
authoritative remaining count was zero), the cached remaining value for
that pool is still zero on return, so the branch condition forcing a
fresh authoritative status query holds for the next call on that pool. -/
theorem rateLimitWaitLeavesZero (st : RateState) (apiType : ApiType)
    (status : RateLimitStatus)
    (h : (checkRateLimiting st apiType status).2 = true) :
    (checkRateLimiting st apiType status).1.get apiType = 0 ∧
    forcesStatusQuery (checkRateLimiting st apiType status).1 apiType = true := by
  rw [checkRateLimiting] at h ⊢
  by_cases h0 : (st.get apiType == 0) = true
  · rw [if_pos h0] at h ⊢
    have hz : status.remaining apiType = 0 := by
      simpa using h
    refine ⟨?_, ?_⟩
    · simp only [hz, rateStateGetSet]
    · simp only [forcesStatusQuery, hz, rateStateGetSet]
      rfl
  · rw [if_neg h0] at h
    exact absurd h (by simp)

def c8State : RateState := ⟨0, 17⟩

def c8Status : RateLimitStatus := ⟨fun _ => 0, some 0⟩

/-- C8 witness: a search-pool call whose status query reports zero
remaining requests. -/
theorem rateLimitWaitLeavesZero_witness :
    (checkRateLimiting c8State .search c8Status).2 = true ∧
    (checkRateLimiting c8State .search c8Status).1.get .search = 0 ∧
    forcesStatusQuery (checkRateLimiting c8State .search c8Status).1 .search = true :=
  ⟨rfl, (rateLimitWaitLeavesZero c8State .search c8Status rfl).1,
   (rateLimitWaitLeavesZero c8State .search c8Status rfl).2⟩

/-! ## Claim C10 — retry exhaustion on `library.properties` returns None -/

/-- Loop-level statement for C10: with every attempt failing retryably,
each unit of fuel performs one more attempt and the loop falls off the
end. -/
theorem parsePropertiesLoopTimeout (server : Nat → PropsResp) (row : LmCells)
    (msg : String) (hall : ∀ n, server n = .httpErr msg)
    (hretry : determineUrlopenRetry msg = true) :
    ∀ fuel attempts,
      parseLibraryDotPropertiesLoop server row fuel attempts = (none, row, attempts + fuel) := by
  intro fuel
  induction fuel with
  | zero => intro attempts; rfl
  | succ n ih =>
    intro attempts
    simp [parseLibraryDotPropertiesLoop, hall attempts, hretry, ih (attempts + 1)]
    omega

/-- C10: when every attempt to fetch `library.properties` fails with a
retryable HTTP status, `parse_library_dot_properties` makes its 6
attempts, then falls off the retry loop and returns Python `None` —
falsy for its caller (`"not found"`), rather than raising the
`TimeoutError` that `get_json_from_url` would raise. -/
theorem propertiesRetryExhaustionNone (server : Nat → PropsResp) (row : LmCells)
    (msg : String) (hall : ∀ n, server n = .httpErr msg)
    (hretry : determineUrlopenRetry msg = true) :
    parseLibraryDotProperties server row = (none, row, 6) ∧
    optionBoolTruthy (parseLibraryDotProperties server row).1 = false := by
  have h : parseLibraryDotProperties server row = (none, row, 6) := by
    rw [parseLibraryDotProperties, parsePropertiesLoopTimeout server row msg hall hretry]
    rfl
  exact ⟨h, by rw [h]; rfl⟩

def c10Server : Nat → PropsResp := fun _ => .httpErr "HTTP Error 403: Forbidden"

/-- C10 witness: a `library.properties` endpoint that always answers
with HTTP 403. -/
theorem propertiesRetryExhaustionNone_witness :
    parseLibraryDotProperties c10Server {} = (none, {}, 6) ∧
    optionBoolTruthy (parseLibraryDotProperties c10Server {}).1 = false :=
  propertiesRetryExhaustionNone c10Server {} _ (fun _ => rfl) (by decide)

/-! ## Claims about the Library Locator -/

theorem sketchExamplesExclusive (e : DirEntry) :
    ¬(isSketchFile e = true ∧ isExamplesFolder e = true) := by
  rcases e with ⟨t, n⟩
  cases t <;> simp [isSketchFile, isExamplesFolder]

theorem classifyFoldl (entries : List DirEntry) (h s x : Bool) :
    entries.foldl (classifyEntry true) (h, s, x) =
      (h || entries.any isHeaderFile, s || entries.any isSketchFile,
        x || entries.any isExamplesFolder) := by
  induction entries generalizing h s x with
  | nil => simp
  | cons e rest ih =>
    rcases e with ⟨t, n⟩
    cases t with
    | file =>
      cases hH : isHeaderFile ⟨.file, n⟩ <;> cases hS : isSketchFile ⟨.file, n⟩ <;>
        simp [List.foldl_cons, List.any_cons, classifyEntry, isExamplesFolder, hH, hS, ih,
          (by decide : (EntryType.file == EntryType.dir) = false)]
    | dir =>
      cases hX : isExamplesFolder ⟨.dir, n⟩ <;>
        simp [List.foldl_cons, List.any_cons, classifyEntry, isHeaderFile, isSketchFile,
          hX, ih, (by decide : (EntryType.dir == EntryType.file) = false)]

theorem classifyRootTrue (entries : List DirEntry) :
    classifyRoot true entries =
      (entries.any isHeaderFile, entries.any isSketchFile,
        entries.any isExamplesFolder) := by
  simpa using classifyFoldl entries false false false

/-- C1: in verify mode, with neither root descriptor found, the locator
accepts the root (`some "/"`) on a root listing page exactly when a
header file is present and (no sketch file is present or an
examples-variant directory is present); every other flag combination is
rejected (`none`), and no subfolder-contents request is ever issued. -/
theorem verifyModeRootAcceptance (api : ContentsApi) (entries : List DirEntry)
    (more : Bool) (fuel : Nat) (hroot : api.root 1 = .ok entries more) :
    ((findLibraryFolder api false false true (fuel + 1)).1 = some "/" ↔
      (entries.any isHeaderFile = true ∧
        (entries.any isSketchFile = false ∨ entries.any isExamplesFolder = true))) ∧
    ((findLibraryFolder api false false true (fuel + 1)).1 = some "/" ∨
      (findLibraryFolder api false false true (fuel + 1)).1 = none) ∧
    (findLibraryFolder api false false true (fuel + 1)).2 = 0 := by
  have hunfold : findLibraryFolder api false false true (fuel + 1) =
      rootLoop api true (fuel + 1) 1 true 0 := rfl
  rw [hunfold, rootLoop, hroot]
  simp only [classifyRootTrue, if_true]
  cases hH : entries.any isHeaderFile <;> cases hS : entries.any isSketchFile <;>
    cases hX : entries.any isExamplesFolder <;> simp

def c1Api : ContentsApi :=
  { root := fun _ => .ok [⟨.file, "Foo.h"⟩, ⟨.dir, "examples"⟩] false,
    sub := fun _ _ => .httpErr }

/-- C1 witness: a root listing with a header file and an examples
directory is accepted at `/` with no subfolder request. -/
theorem verifyModeRootAcceptance_witness :
    (findLibraryFolder c1Api false false true 1).1 = some "/" ∧
    (findLibraryFolder c1Api false false true 1).2 = 0 := by
  have h := verifyModeRootAcceptance c1Api [⟨.file, "Foo.h"⟩, ⟨.dir, "examples"⟩]
    false 0 rfl
  exact ⟨h.1.mpr (by decide), h.2.2⟩

/-- C9: in verify mode the locate decision is computed from the first
page of the root listing alone — two contents endpoints that agree on
root page 1 produce identical results, whatever their later root pages,
subfolder listings, or the available fuel. -/
theorem verifyModeFirstPageOnly (apiA apiB : ContentsApi) (props json : Bool)
    (fuelA fuelB : Nat) (hfirst : apiA.root 1 = apiB.root 1) :
    findLibraryFolder apiA props json true (fuelA + 1) =
      findLibraryFolder apiB props json true (fuelB + 1) := by
  cases props <;> cases json
  · show rootLoop apiA true (fuelA + 1) 1 true 0 = rootLoop apiB true (fuelB + 1) 1 true 0
    rw [rootLoop, rootLoop, ← hfirst]
    cases apiA.root 1 with
    | ok entries more => simp
    | httpErr => rfl
    | decodeErr => rfl
    | timeoutErr => rfl
  · rfl
  · rfl
  · rfl

def c9ApiA : ContentsApi :=
  { root := fun n => if n = 1 then .ok [⟨.file, "Foo.h"⟩] true else .ok [] false,
    sub := fun _ _ => .ok [] false }

def c9ApiB : ContentsApi :=
  { root := fun n => if n = 1 then .ok [⟨.file, "Foo.h"⟩] true
                     else .ok [⟨.file, "sketch.ino"⟩] false,
    sub := fun _ _ => .httpErr }

/-- C9 witness: two endpoints agreeing only on root page 1 (one of them
carrying a sketch file on page 2) locate identically in verify mode. -/
theorem verifyModeFirstPageOnly_witness :
    findLibraryFolder c9ApiA false false true 1 =
      findLibraryFolder c9ApiB false false true 4 :=
  verifyModeFirstPageOnly c9ApiA c9ApiB false false 0 3 rfl

/-- C7: an unparsable or timed-out root-contents listing makes the
locator resolve to not-found (with no subfolder request) in both modes;
`populate_row` then (for a fresh URL) drops the repository entirely in
verify mode but appends a row whose library-path cell is the empty
string in non-verify mode. -/
theorem unparsableRootListing :
    (∀ (api : ContentsApi) (verify : Bool) (fuel : Nat),
      api.root 1 = .decodeErr ∨ api.root 1 = .timeoutErr →
      findLibraryFolder api false false verify (fuel + 1) = (none, 0)) ∧
    (∀ (table : List (List String)) (feed : RowFeed),
      (∀ r ∈ table, cellAt r colRepositoryUrl ≠ feed.repo.htmlUrl) →
      feed.libraryFolder = none →
      (feed.verify = true → populateRow table feed = table) ∧
      (feed.verify = false →
        populateRow table feed = table ++ [buildRow feed ""] ∧
        cellAt (buildRow feed "") colLibraryPath = "")) := by
  constructor
  · intro api verify fuel hfail
    show rootLoop api verify (fuel + 1) 1 true 0 = (none, 0)
    rw [rootLoop]
    rcases hfail with h | h <;> rw [h] <;> rfl
  · intro table feed hfresh hnone
    have hdup : (table.any fun readRow =>
        cellAt readRow colRepositoryUrl == feed.repo.htmlUrl) = false := by
      rw [List.any_eq_false]
      intro r hr
      simpa using hfresh r hr
    constructor
    · intro hv
      rw [populateRow, hdup, hnone]
      simp [hv]
    · intro hv
      constructor
      · rw [populateRow, hdup, hnone]
        simp [hv]
      · rfl

def c7Api : ContentsApi :=
  { root := fun _ => .decodeErr, sub := fun _ _ => .ok [] false }

def c7Repo : RepoObject :=
  { htmlUrl := "https://github.com/o/r", ownerLogin := "o", name := "r",
    defaultBranch := "master", archived := false, fork := false,
    pushedAt := "2018-01-01T00:00:00Z", forksCount := 0, stargazersCount := 0,
    language := some "C++", description := none, topics := [], license := none }

def c7VerifyFeed : RowFeed :=
  { repo := c7Repo, inLibraryManager := false, verify := true,
    libraryFolder := none, contributorCount := "1", metaCells := [] }

def c7PlainFeed : RowFeed :=
  { repo := c7Repo, inLibraryManager := false, verify := false,
    libraryFolder := none, contributorCount := "1", metaCells := [] }

/-- C7 witness: a decode-failing root listing resolves to not-found in
both modes; the verify-mode feed adds nothing to the freshly initialized
table while the non-verify feed appends a row with an empty library-path
cell. -/
theorem unparsableRootListing_witness :
    findLibraryFolder c7Api false false true 1 = (none, 0) ∧
    findLibraryFolder c7Api false false false 1 = (none, 0) ∧
    populateRow initialTable c7VerifyFeed = initialTable ∧
    populateRow initialTable c7PlainFeed = initialTable ++ [buildRow c7PlainFeed ""] ∧
    cellAt (buildRow c7PlainFeed "") colLibraryPath = "" := by
  have h1 := unparsableRootListing.1 c7Api true 0 (Or.inl rfl)
  have h2 := unparsableRootListing.1 c7Api false 0 (Or.inl rfl)
  have hfresh : ∀ r ∈ initialTable, cellAt r colRepositoryUrl ≠ c7Repo.htmlUrl := by
    decide
  have h3 := unparsableRootListing.2 initialTable c7VerifyFeed hfresh rfl
  have h4 := unparsableRootListing.2 initialTable c7PlainFeed hfresh rfl
  exact ⟨h1, h2, h3.1 rfl, (h4.2 rfl).1, (h4.2 rfl).2⟩

/-! ## Claim C2 — URL dedup of the row-population step -/

theorem processFeedsCons (table : List (List String)) (f : RowFeed) (fs : List RowFeed) :
    processFeeds table (f :: fs) = processFeeds (populateRow table f) fs := rfl

theorem buildRowUrlCell (feed : RowFeed) (cell : String) :
    cellAt (buildRow feed cell) colRepositoryUrl = sanitizeCell feed.repo.htmlUrl := rfl

theorem populateRowCases (table : List (List String)) (feed : RowFeed) :
    populateRow table feed = table ∨
    ((table.any fun r => cellAt r colRepositoryUrl == feed.repo.htmlUrl) = false ∧
      ∃ cell, populateRow table feed = table ++ [buildRow feed cell]) := by
  rw [populateRow]
  by_cases hdup : (table.any fun r => cellAt r colRepositoryUrl == feed.repo.htmlUrl) = true
  · rw [if_pos hdup]
    exact Or.inl rfl
  · have hdup' := Bool.eq_false_iff.mpr hdup
    rw [if_neg hdup]
    cases hlib : feed.libraryFolder with
    | none =>
      cases hv : feed.verify with
      | true => simp
      | false => exact Or.inr ⟨hdup', "", by simp⟩
    | some folder => exact Or.inr ⟨hdup', folder, rfl⟩

theorem populateRowInvariant (table : List (List String)) (feed : RowFeed)
    (hc : ∀ r ∈ table, sanitizeCell (cellAt r colRepositoryUrl) = cellAt r colRepositoryUrl)
    (hp : table.Pairwise (fun r r2 => cellAt r colRepositoryUrl ≠ cellAt r2 colRepositoryUrl))
    (hfeed : sanitizeCell feed.repo.htmlUrl = feed.repo.htmlUrl) :
    (∀ r ∈ populateRow table feed,
      sanitizeCell (cellAt r colRepositoryUrl) = cellAt r colRepositoryUrl) ∧
    (populateRow table feed).Pairwise
      (fun r r2 => cellAt r colRepositoryUrl ≠ cellAt r2 colRepositoryUrl) := by
  rcases populateRowCases table feed with hcase | ⟨hdup, cell, hcase⟩
  · rw [hcase]
    exact ⟨hc, hp⟩
  · rw [hcase]
    have hurlcell : cellAt (buildRow feed cell) colRepositoryUrl = feed.repo.htmlUrl := by
      rw [buildRowUrlCell, hfeed]
    constructor
    · intro r hr
      rcases List.mem_append.mp hr with h | h
      · exact hc r h
      · have heq : r = buildRow feed cell := by simpa using h
        rw [heq, hurlcell]
        exact hfeed
    · refine List.pairwise_append.mpr ⟨hp, List.pairwise_singleton _ _, ?_⟩
      intro a ha b hb
      have hb' : b = buildRow feed cell := by simpa using hb
      rw [hb', hurlcell]
      have hne := List.any_eq_false.mp hdup a ha
      simpa using hne

def c2DupRepo : RepoObject :=
  { htmlUrl := " x", ownerLogin := "o", name := "n", defaultBranch := "master",
    archived := false, fork := false, pushedAt := "2018-01-01T00:00:00Z",
    forksCount := 1, stargazersCount := 2, language := some "C++",
    description := none, topics := [], license := none }

def c2DupFeed : RowFeed :=
  { repo := c2DupRepo, inLibraryManager := false, verify := false,
    libraryFolder := some "/", contributorCount := "1", metaCells := [] }

/-- C2 counterexample: a repository whose `html_url` is `" x"` (one
leading space) fed twice yields TWO rows, because the dedup check
compares the raw `html_url` against the stored cell, which was trimmed
to `"x"` — refuting the claim that every URL yields exactly one row. -/
theorem populateRowDedup_counterexample :
    (processFeeds initialTable [c2DupFeed, c2DupFeed]).length = 3 ∧
    cellAt ((processFeeds initialTable [c2DupFeed, c2DupFeed]).getD 1 [])
      colRepositoryUrl = "x" ∧
    cellAt ((processFeeds initialTable [c2DupFeed, c2DupFeed]).getD 2 [])
      colRepositoryUrl = "x" :=
  ⟨by decide, by decide, by decide⟩

/-- C2 amended: a repository whose `html_url` equals the URL cell of an
existing row is dropped before any row is built; the table only ever
grows by appending (existing rows are never rewritten); and provided
every fed URL is unchanged by the cell sanitization (no tabs, no
leading/trailing whitespace), the URL cells of the resulting catalog
stay pairwise distinct — each such URL yields at most one row, the
first-seen one. -/
theorem populateRowDedup_amended :
    (∀ (table : List (List String)) (feed : RowFeed),
      (∃ r ∈ table, cellAt r colRepositoryUrl = feed.repo.htmlUrl) →
      populateRow table feed = table) ∧
    (∀ (table : List (List String)) (feeds : List RowFeed),
      ∃ newRows, processFeeds table feeds = table ++ newRows) ∧
    (∀ (table : List (List String)) (feeds : List RowFeed),
      (∀ r ∈ table, sanitizeCell (cellAt r colRepositoryUrl) = cellAt r colRepositoryUrl) →
      table.Pairwise (fun r r2 => cellAt r colRepositoryUrl ≠ cellAt r2 colRepositoryUrl) →
      (∀ f ∈ feeds, sanitizeCell f.repo.htmlUrl = f.repo.htmlUrl) →
      ((∀ r ∈ processFeeds table feeds,
          sanitizeCell (cellAt r colRepositoryUrl) = cellAt r colRepositoryUrl) ∧
        (processFeeds table feeds).Pairwise
          (fun r r2 => cellAt r colRepositoryUrl ≠ cellAt r2 colRepositoryUrl))) := by
  refine ⟨?_, ?_, ?_⟩
  · rintro table feed ⟨r, hr, hurl⟩
    rw [populateRow, if_pos (List.any_eq_true.mpr ⟨r, hr, by simp [hurl]⟩)]
  · intro table feeds
    induction feeds generalizing table with
    | nil => exact ⟨[], by simp [processFeeds]⟩
    | cons f fs ih =>
      rw [processFeedsCons]
      rcases populateRowCases table f with hcase | ⟨-, cell, hcase⟩
      · rw [hcase]
        exact ih table
      · rw [hcase]
        obtain ⟨new2, hnew2⟩ := ih (table ++ [buildRow f cell])
        exact ⟨buildRow f cell :: new2, by
          rw [hnew2, List.append_assoc]
          rfl⟩
  · intro table feeds
    induction feeds generalizing table with
    | nil => exact fun hc hp _ => ⟨hc, hp⟩
    | cons f fs ih =>
      intro hc hp hf
      rw [processFeedsCons]
      obtain ⟨hc', hp'⟩ := populateRowInvariant table f hc hp (hf f (List.mem_cons_self f fs))
      exact ih (populateRow table f) hc' hp'
        (fun g hg => hf g (List.mem_cons_of_mem f hg))

def c2CleanRepo : RepoObject :=
  { htmlUrl := "https://github.com/o/r", ownerLogin := "o", name := "r",
    defaultBranch := "master", archived := false, fork := false,
    pushedAt := "2018-01-01T00:00:00Z", forksCount := 1, stargazersCount := 2,
    language := some "C++", description := none, topics := [], license := none }

def c2CleanFeed : RowFeed :=
  { repo := c2CleanRepo, inLibraryManager := false, verify := false,
    libraryFolder := some "/", contributorCount := "1", metaCells := [] }

def c2SeenTable : List (List String) := initialTable ++ [buildRow c2CleanFeed "/"]

/-- C2 witness: a clean URL already stored is dropped, and one feed over
the fresh table leaves the URL cells pairwise distinct. -/
theorem populateRowDedup_amended_witness :
    populateRow c2SeenTable c2CleanFeed = c2SeenTable ∧
    (processFeeds initialTable [c2CleanFeed]).Pairwise
      (fun r r2 => cellAt r colRepositoryUrl ≠ cellAt r2 colRepositoryUrl) := by
  constructor
  · exact populateRowDedup_amended.1 c2SeenTable c2CleanFeed
      ⟨buildRow c2CleanFeed "/", by simp [c2SeenTable], by decide⟩
  · exact (populateRowDedup_amended.2.2 initialTable [c2CleanFeed]
      (by decide) (List.pairwise_singleton _ _) (by decide)).2

/-! ## Claim C3 — `authors` polymorphism of the JSON descriptor parser -/

/-- C3 counterexample: `authors: ["A","B"]` (a list of plain strings)
does NOT store `"A, B"` — the generator `author["name"]` raises an
uncaught `TypeError`, so the whole parse fails. -/
theorem authorsPolymorphism_counterexample :
    parseLibraryDotJson (.ok (.jobj [("authors", .jarr [.jstr "A", .jstr "B"])])) =
      .error () := rfl

/-- C3 amended: the `authors` list form must be a list of objects with a
`name` key — `[{name:"A"},{name:"B"}]` stores `"A, B"`; the object form
`{name:"A"}` stores `"A"`; a non-list unexpected shape (e.g. a number)
is skipped with a warning; but a list of plain strings raises an
uncaught `TypeError` (see the counterexample). -/
theorem authorsPolymorphism_amended :
    parseLibraryDotJson (.ok (.jobj [("authors",
        .jarr [.jobj [("name", .jstr "A")], .jobj [("name", .jstr "B")]])])) =
      .ok (true, { pioAuthors := some (.jstr "A, B") }) ∧
    parseLibraryDotJson (.ok (.jobj [("authors", .jobj [("name", .jstr "A")])])) =
      .ok (true, { pioAuthors := some (.jstr "A") }) ∧
    parseLibraryDotJson (.ok (.jobj [("authors", .jnum 5)])) = .ok (true, {}) :=
  ⟨rfl, rfl, rfl⟩

/-! ## Claim C6 — found/not-found result of the JSON descriptor parser -/

/-- C6 counterexample: a file that WAS retrieved and decoded
(`{"frameworks": [1]}`) makes the parser raise an uncaught `TypeError`
instead of returning found — refuting \"returns True whenever the file
could be retrieved\". -/
theorem libraryJsonFound_counterexample :
    parseLibraryDotJson (.ok (.jobj [("frameworks", .jarr [.jnum 1])])) =
      .error () := rfl

/-- C6 amended: a transport failure returns `False` and a JSON-decode
failure returns `True`; whenever the parser RETURNS (no uncaught
exception from a malformed polymorphic field), the result is `True`
exactly when retrieval did not fail at the transport level. -/
theorem libraryJsonFound_amended :
    parseLibraryDotJson .transportFail = .ok (false, {}) ∧
    parseLibraryDotJson .decodeFail = .ok (true, {}) ∧
    (∀ (jsonData : JsonV) (result : Bool × PioCells),
      parseLibraryDotJson (.ok jsonData) = .ok result → result.1 = true) ∧
    (∀ (fetch : LibraryJsonFetch) (result : Bool × PioCells),
      parseLibraryDotJson fetch = .ok result →
      (result.1 = false ↔ fetch = .transportFail)) := by
  have hok : ∀ (jsonData : JsonV) (result : Bool × PioCells),
      parseLibraryDotJson (.ok jsonData) = .ok result → result.1 = true := by
    intro jsonData result h
    rw [parseLibraryDotJson] at h
    cases hp : parseJsonFields jsonData with
    | error e =>
      rw [hp] at h
      simp [Except.map] at h
    | ok cells =>
      rw [hp] at h
      simp only [Except.map, Except.ok.injEq] at h
      rw [← h]
  refine ⟨rfl, rfl, hok, ?_⟩
  intro fetch result h
  cases fetch with
  | transportFail =>
    have hres : ((false : Bool), ({} : PioCells)) = result :=
      Except.ok.inj (h : (Except.ok (ε := Unit) (false, ({} : PioCells))) = .ok result)
    simp [← hres]
  | decodeFail =>
    have hres : ((true : Bool), ({} : PioCells)) = result :=
      Except.ok.inj (h : (Except.ok (ε := Unit) (true, ({} : PioCells))) = .ok result)
    simp [← hres]
  | ok jsonData =>
    have htrue := hok jsonData result h
    simp [htrue]

/-- C6 witness: the returning branches of the amended statement at
concrete fetch outcomes. -/
theorem libraryJsonFound_amended_witness :
    ((true, ({} : PioCells)).1 = true) ∧
    (((false, ({} : PioCells)).1 = false) ↔
      (LibraryJsonFetch.transportFail = LibraryJsonFetch.transportFail)) :=
  ⟨libraryJsonFound_amended.2.2.1 (.jobj []) (true, {}) rfl,
   libraryJsonFound_amended.2.2.2 .transportFail (false, {}) rfl⟩

end Inoliblist
